import Mathlib

/-
Verification of the cai-crawler repository core: a shallow embedding of
the reference extractor (src/convex/utils/extractors.ts), the raw snapshot
store (src/convex/entitySnapshots.ts), the image ingestion pipeline
(src/convex/images.ts), the run bookkeeping (src/convex/runs.ts) and the
URL builder (src/convex/utils/url.ts), together with theorems settling the
spec claims about them.

Modelling conventions for the JavaScript/TypeScript source:
  - JSON/JS values are modelled by the inductive type Json below.  Numbers
    are modelled at integer precision (no claim under study depends on
    fractional number values, NaN arithmetic, or IEEE rounding).
  - undefined is modelled as Option.none where a value may be absent
    (object property lookup, optional record fields); null is Json.null.
  - JS objects are insertion-ordered key/value lists; real JS objects never
    carry duplicate keys, and lookups take the first match.
  - Runtime type errors (calling a string method on a non-string, property
    access on null/undefined) are modelled with Except; a JS try/catch
    corresponds to handling the Except.error case.
  - Strings: Lean String operations (toLower, trim, startsWith, drop) agree
    with their JS counterparts on the ASCII data involved in every claim.
-/

namespace Crawler

/-- Model of a JavaScript/JSON runtime value (numbers at integer precision). -/
inductive Json where
  | null
  | bool (b : Bool)
  | num (n : Int)
  | str (s : String)
  | arr (elems : List Json)
  | obj (fields : List (String × Json))
deriving Repr

mutual

def Json.decEq : (a b : Json) → Decidable (a = b)
  | .null, .null => isTrue rfl
  | .bool x, .bool y =>
      if h : x = y then isTrue (by rw [h])
      else isFalse (by intro hc; cases hc; exact h rfl)
  | .num x, .num y =>
      if h : x = y then isTrue (by rw [h])
      else isFalse (by intro hc; cases hc; exact h rfl)
  | .str x, .str y =>
      if h : x = y then isTrue (by rw [h])
      else isFalse (by intro hc; cases hc; exact h rfl)
  | .arr xs, .arr ys =>
      match Json.decEqList xs ys with
      | isTrue h => isTrue (by rw [h])
      | isFalse h => isFalse (by intro hc; cases hc; exact h rfl)
  | .obj xs, .obj ys =>
      match Json.decEqFields xs ys with
      | isTrue h => isTrue (by rw [h])
      | isFalse h => isFalse (by intro hc; cases hc; exact h rfl)
  | .null, .bool _ | .null, .num _ | .null, .str _ | .null, .arr _ | .null, .obj _
  | .bool _, .null | .bool _, .num _ | .bool _, .str _ | .bool _, .arr _ | .bool _, .obj _
  | .num _, .null | .num _, .bool _ | .num _, .str _ | .num _, .arr _ | .num _, .obj _
  | .str _, .null | .str _, .bool _ | .str _, .num _ | .str _, .arr _ | .str _, .obj _
  | .arr _, .null | .arr _, .bool _ | .arr _, .num _ | .arr _, .str _ | .arr _, .obj _
  | .obj _, .null | .obj _, .bool _ | .obj _, .num _ | .obj _, .str _ | .obj _, .arr _ =>
      isFalse (by intro hc; cases hc)
termination_by structural a => a

def Json.decEqList : (a b : List Json) → Decidable (a = b)
  | [], [] => isTrue rfl
  | [], _ :: _ => isFalse (by intro hc; cases hc)
  | _ :: _, [] => isFalse (by intro hc; cases hc)
  | x :: xs, y :: ys =>
      match Json.decEq x y with
      | isFalse h => isFalse (by intro hc; cases hc; exact h rfl)
      | isTrue h1 =>
        match Json.decEqList xs ys with
        | isTrue h2 => isTrue (by rw [h1, h2])
        | isFalse h => isFalse (by intro hc; cases hc; exact h rfl)
termination_by structural a => a

def Json.decEqFields : (a b : List (String × Json)) → Decidable (a = b)
  | [], [] => isTrue rfl
  | [], _ :: _ => isFalse (by intro hc; cases hc)
  | _ :: _, [] => isFalse (by intro hc; cases hc)
  | (k1, v1) :: xs, (k2, v2) :: ys =>
      if hk : k1 = k2 then
        match Json.decEq v1 v2 with
        | isFalse h => isFalse (by intro hc; cases hc; exact h rfl)
        | isTrue hv =>
          match Json.decEqFields xs ys with
          | isTrue ht => isTrue (by rw [hk, hv, ht])
          | isFalse h => isFalse (by intro hc; cases hc; exact h rfl)
      else isFalse (by intro hc; cases hc; exact hk rfl)
termination_by structural a => a

end

instance : DecidableEq Json := Json.decEq

/-- JS truthiness of a value: null, false, 0 and the empty string are falsy;
arrays and objects are always truthy. -/
def jsTruthy : Json → Bool
  | .null => false
  | .bool b => b
  | .num n => n != 0
  | .str s => s != ""
  | .arr _ => true
  | .obj _ => true

/-- Truthiness of a possibly-undefined value (undefined is falsy). -/
def jsTruthyOpt : Option Json → Bool
  | none => false
  | some j => jsTruthy j

mutual

/-- JS String(value) coercion: template-literal stringification. -/
def jsToString : Json → String
  | .null => "null"
  | .bool b => if b then "true" else "false"
  | .num n => toString n
  | .str s => s
  | .arr xs => jsArrToString xs
  | .obj _ => "[object Object]"
termination_by structural j => j

/-- JS Array.prototype.toString: elements joined by commas, null/undefined
elements rendered as the empty string. -/
def jsArrToString : List Json → String
  | [] => ""
  | [x] =>
      (match x with
       | .null => ""
       | x => jsToString x)
  | x :: y :: rest =>
      (match x with
       | .null => ""
       | x => jsToString x) ++ "," ++ jsArrToString (y :: rest)
termination_by structural l => l

end

/-- Stringification of a possibly-undefined value. -/
def jsToStringOpt : Option Json → String
  | none => "undefined"
  | some j => jsToString j

/-- ASCII lowercasing of one character (JS String.prototype.toLowerCase on
the ASCII range used throughout the claims). -/
def jsCharToLower (c : Char) : Char :=
  if 65 ≤ c.toNat ∧ c.toNat ≤ 90 then Char.ofNat (c.toNat + 32) else c

/-- JS value.toLowerCase() result for a string receiver. -/
def jsStrToLower (s : String) : String :=
  String.mk (s.data.map jsCharToLower)

def listStartsWith : List Char → List Char → Bool
  | _, [] => true
  | [], _ :: _ => false
  | c :: cs, p :: ps => c = p && listStartsWith cs ps

/-- JS String.prototype.startsWith. -/
def strStartsWith (s p : String) : Bool :=
  listStartsWith s.data p.data

/-- JS String.prototype.substring(n): drop the first n characters. -/
def strDrop (s : String) (n : Nat) : String :=
  String.mk (s.data.drop n)

/-- Runtime errors thrown by the modelled JS code.  All TypeErrors
(method call on a value lacking the method, property access on
null/undefined) are collapsed into one constructor. -/
inductive RTErr where
  | typeError
deriving DecidableEq, Repr

/-- Own-property lookup on a non-null value: objects by key (first match:
real JS objects have no duplicate keys), everything else has no own string
properties of interest (array named properties and primitive boxing both
yield undefined for the keys the extractors use). -/
def lookupProp : Json → String → Option Json
  | .obj fields, k => (fields.find? (fun f => f.1 = k)).map (fun f => f.2)
  | _, _ => none

/-- JS property access base.k, which throws a TypeError when the base is
null (or undefined, which callers encode as Json.null never arising here:
an undefined base is handled by the optional-chaining helpers before this
is reached). -/
def jsProp : Json → String → Except RTErr (Option Json)
  | .null, _ => .error .typeError
  | j, k => .ok (lookupProp j k)

/-- Optional-chained access base?.k: null/undefined bases yield undefined
instead of throwing. -/
def jsPropChain (base : Option Json) (k : String) : Option Json :=
  match base with
  | none => none
  | some .null => none
  | some j => lookupProp j k

/-- JS for-in enumeration order of own keys: object keys in insertion
order; array index keys as decimal strings. -/
def ownKeys : Json → List String
  | .obj fields => fields.map (fun f => f.1)
  | .arr xs => (List.range xs.length).map (fun i => toString i)
  | _ => []

/-- The value.toLowerCase() call: succeeds only on strings. -/
def jsToLowerCase : Json → Except RTErr String
  | .str s => .ok (jsStrToLower s)
  | _ => .error .typeError

-- ModelReference (src/convex/utils/extractors.ts, lines 10-17).
-- TypeScript declares the fields as string/number, but the extractors copy
-- raw metadata values into them unchecked, so at runtime each optional
-- field can hold an arbitrary JS value; the model reflects the runtime.

/-- ModelReference record produced by the extractors.  The type field is
always a genuine string by construction; the optional fields hold whatever
the metadata contained (none models undefined/absent). -/
structure ModelReference where
  type : String
  name : Option Json := none
  id : Option Json := none
  versionId : Option Json := none
  weight : Option Json := none
  hash : Option Json := none
deriving DecidableEq, Repr

/-- Extractor for the meta.civitaiResources array (extractFromCivitaiResources). -/
def extractFromCivitaiResources (imageData : Json) : Except RTErr (List ModelReference) := do
  let meta ← jsProp imageData "meta"
  match jsPropChain meta "civitaiResources" with
  | some (.arr resources) =>
      resources.foldlM (fun (acc : List ModelReference) resource => do
        let t ← jsProp resource "type"
        match t with
        | none => pure acc
        | some .null => pure acc
        | some tv =>
          let tl ← jsToLowerCase tv
          if tl = "checkpoint" || tl = "lora" then
            pure (acc ++ [{ type := tl
                            versionId := lookupProp resource "modelVersionId"
                            name := lookupProp resource "modelVersionName"
                            weight := lookupProp resource "weight" }])
          else
            pure acc) []
  | _ => pure []

/-- Extractor for the meta.resources array (extractFromResources); a bare
"model" type is normalized to "checkpoint". -/
def extractFromResources (imageData : Json) : Except RTErr (List ModelReference) := do
  let meta ← jsProp imageData "meta"
  match jsPropChain meta "resources" with
  | some (.arr resources) =>
      resources.foldlM (fun (acc : List ModelReference) resource => do
        let t ← jsProp resource "type"
        match t with
        | none => pure acc
        | some .null => pure acc
        | some tv =>
          let tl ← jsToLowerCase tv
          if tl = "checkpoint" || tl = "lora" || tl = "model" then
            pure (acc ++ [{ type := if tl = "model" then "checkpoint" else tl
                            name := lookupProp resource "name"
                            id := lookupProp resource "modelId"
                            versionId := lookupProp resource "modelVersionId"
                            weight := lookupProp resource "weight"
                            hash := lookupProp resource "hash" }])
          else
            pure acc) []
  | _ => pure []

/-- Extractor for the flat meta.Model field (+ optional meta["Model hash"])
(extractFromModelField). -/
def extractFromModelField (imageData : Json) : Except RTErr (List ModelReference) := do
  let meta ← jsProp imageData "meta"
  let model := jsPropChain meta "Model"
  if jsTruthyOpt model then
    let mh := jsPropChain meta "Model hash"
    if jsTruthyOpt mh then
      pure [{ type := "checkpoint", name := model, hash := mh }]
    else
      pure [{ type := "checkpoint", name := model }]
  else
    pure []

/-- Extractor for the meta.hashes map: a "model" entry is the checkpoint
hash, and each "lora:name" entry a per-LoRA hash (extractFromHashes). -/
def extractFromHashes (imageData : Json) : Except RTErr (List ModelReference) := do
  let meta ← jsProp imageData "meta"
  match jsPropChain meta "hashes" with
  | some hashes =>
      -- guard: hashes truthy and typeof hashes === 'object'
      if jsTruthy hashes &&
         (match hashes with | .obj _ => true | .arr _ => true | _ => false) then
        let hmodel := lookupProp hashes "model"
        let base : List ModelReference :=
          if jsTruthyOpt hmodel then
            [{ type := "checkpoint", hash := hmodel }]
          else
            []
        pure (base ++ (ownKeys hashes).foldl (fun acc key =>
          if strStartsWith key "lora:" then
            acc ++ [{ type := "lora"
                      name := some (.str (strDrop key 5))
                      hash := lookupProp hashes key }]
          else
            acc) [])
      else
        pure []
  | none => pure []

/-- Number.parseFloat on the matched weight text, modelled at integer
precision: an optional sign followed by leading decimal digits (a
fractional part is truncated); text with no leading numeric part (NaN in
JS) is modelled as 0.  Weight values never influence truthiness-sensitive
control flow, merge choice or key construction, and no claim depends on
them. -/
def parseFloatJS (s : String) : Json :=
  let chars := s.toList
  let (neg, rest) :=
    match chars with
    | '-' :: cs => (true, cs)
    | '+' :: cs => (false, cs)
    | cs => (false, cs)
  let digits := rest.takeWhile (fun c => c.isDigit)
  let mag : Int := digits.foldl (fun acc c => acc * 10 + (c.toNat - '0'.toNat : Int)) 0
  .num (if neg then -mag else mag)

/-- One step of the token scan: try to read a "<lora:name:weight>" token
(regex <lora:([^:]+):([^>]+)>) at the head of the character list, returning
the two capture groups and the remaining characters. -/
def parseLoraToken (l : List Char) : Option (String × String × List Char) :=
  match l with
  | '<' :: 'l' :: 'o' :: 'r' :: 'a' :: ':' :: rest =>
      let nm := rest.takeWhile (fun c => c ≠ ':')
      let r1 := rest.dropWhile (fun c => c ≠ ':')
      match nm, r1 with
      | [], _ => none
      | _ :: _, ':' :: r2 =>
          let wt := r2.takeWhile (fun c => c ≠ '>')
          let r3 := r2.dropWhile (fun c => c ≠ '>')
          match wt, r3 with
          | [], _ => none
          | _ :: _, '>' :: r4 => some (nm.asString, wt.asString, r4)
          | _, _ => none
      | _, _ => none
  | _ => none

/-- Global regex scan for lora tokens, advancing one character past a
failed position and past the whole token on a match (JS lastIndex
semantics).  Each step consumes at least one character, so fuel equal to
the input length is always sufficient. -/
def findLoraTokens : Nat → List Char → List (String × String)
  | 0, _ => []
  | _, [] => []
  | fuel + 1, c :: rest =>
      match parseLoraToken (c :: rest) with
      | some (n, w, r) => (n, w) :: findLoraTokens fuel r
      | none => findLoraTokens fuel rest

/-- Extractor for inline lora tokens in the free-text prompt
(extractFromPrompt); a truthy non-string prompt throws on .match. -/
def extractFromPrompt (imageData : Json) : Except RTErr (List ModelReference) := do
  let meta ← jsProp imageData "meta"
  let p := jsPropChain meta "prompt"
  if jsTruthyOpt p then
    match p with
    | some (.str s) =>
        pure ((findLoraTokens (s.toList.length + 1) s.toList).map (fun t =>
          { type := "lora", name := some (.str t.1), weight := some (parseFloatJS t.2) }))
    | _ => .error .typeError
  else
    pure []

/-- Map keys used by the consolidation pass.  The source builds string keys
"versionId:...", "id:...", "hash:...", "type:name:..." and, for references
with no usable discriminator, a fresh "unknown:" ++ Math.random() key.  The
random keys are modelled by the fresh constructor fed from a counter: a
Math.random key almost surely differs from every other key in the map, and
can never equal a structured key (String(number) starts with a digit and
contains no ":name:" segment, while the structured prefixes are fixed
words). -/
inductive ConsKey where
  | str (s : String)
  | fresh (n : Nat)
deriving DecidableEq, Repr

/-- Discriminator keys of a reference, in source order (versionId, model
id, hash, then lowercased name); computing the name key calls
name.toLowerCase() and therefore throws on a truthy non-string name. -/
def refKeys (r : ModelReference) : Except RTErr (List String) := do
  let ks1 := if jsTruthyOpt r.versionId then ["versionId:" ++ jsToStringOpt r.versionId] else []
  let ks2 := if jsTruthyOpt r.id then ["id:" ++ jsToStringOpt r.id] else []
  let ks3 := if jsTruthyOpt r.hash then ["hash:" ++ jsToStringOpt r.hash] else []
  let ks4 ←
    if jsTruthyOpt r.name then
      match r.name with
      | some (.str s) => pure [r.type ++ ":name:" ++ jsStrToLower s]
      | _ => (.error .typeError : Except RTErr (List String))
    else
      pure []
  pure (ks1 ++ ks2 ++ ks3 ++ ks4)

/-- Association-list model of the insertion-ordered JS Map. -/
def mapLookup (m : List (ConsKey × ModelReference)) (k : ConsKey) : Option ModelReference :=
  (m.find? (fun e => e.1 = k)).map (fun e => e.2)

/-- Map.set: replace the value at an existing key in place, else append. -/
def mapSet (m : List (ConsKey × ModelReference)) (k : ConsKey) (v : ModelReference) :
    List (ConsKey × ModelReference) :=
  if m.any (fun e => e.1 = k) then
    m.map (fun e => if e.1 = k then (k, v) else e)
  else
    m ++ [(k, v)]

/-- Merge two references for the same model: truthy-or for type/id/
versionId/hash/name (first operand preferred), nullish-coalescing for
weight (mergeReferences, src/convex/utils/extractors.ts lines 284-298). -/
def mergeReferences (a b : ModelReference) : ModelReference :=
  { type := if a.type ≠ "" then a.type else b.type
    id := if jsTruthyOpt a.id then a.id else b.id
    versionId := if jsTruthyOpt a.versionId then a.versionId else b.versionId
    hash := if jsTruthyOpt a.hash then a.hash else b.hash
    name := if jsTruthyOpt a.name then a.name else b.name
    weight := match a.weight with
              | none => b.weight
              | some .null => b.weight
              | w => w }

/-- The for-loop over a reference's keys: merge into the first key already
present in the map, if any. -/
def tryMergeKeys (m : List (ConsKey × ModelReference)) (r : ModelReference) :
    List String → Option (List (ConsKey × ModelReference))
  | [] => none
  | k :: ks =>
      match mapLookup m (.str k) with
      | some existing => some (mapSet m (.str k) (mergeReferences existing r))
      | none => tryMergeKeys m r ks

/-- One reference processed against the accumulated map and fresh-key
counter (the body of the consolidateReferences loop). -/
def consolidateStep (m : List (ConsKey × ModelReference)) (c : Nat) (r : ModelReference) :
    Except RTErr (List (ConsKey × ModelReference) × Nat) := do
  let keys ← refKeys r
  match keys with
  | [] => pure (m ++ [(.fresh c, r)], c + 1)
  | k0 :: ks =>
      match tryMergeKeys m r (k0 :: ks) with
      | some m1 => pure (m1, c)
      | none => pure (mapSet m (.str k0) r, c)

/-- The consolidation loop over the whole reference list. -/
def consolidateCore (m : List (ConsKey × ModelReference)) (c : Nat) :
    List ModelReference → Except RTErr (List (ConsKey × ModelReference) × Nat)
  | [] => pure (m, c)
  | r :: rs => do
      let (m1, c1) ← consolidateStep m c r
      consolidateCore m1 c1 rs

/-- Consolidate references by merging duplicates
(consolidateReferences, src/convex/utils/extractors.ts lines 221-276).
Returns the map values in insertion order; throws (uncaught in the
caller) when a reference carries a truthy non-string name. -/
def consolidateReferences (references : List ModelReference) :
    Except RTErr (List ModelReference) := do
  let (m, _) ← consolidateCore [] 0 references
  pure (m.map (fun e => e.2))

/-- Main extraction entry point (extractModelReferences, lines 25-54): run
the five extractors, each inside its own try/catch (a throwing extractor
contributes nothing), then consolidate the accumulated references outside
any catch. -/
def extractModelReferences (imageData : Json) : Except RTErr (List ModelReference) :=
  let extractors := [extractFromCivitaiResources, extractFromResources,
                     extractFromModelField, extractFromHashes, extractFromPrompt]
  let allReferences := extractors.foldl (fun acc ext =>
    match ext imageData with
    | .ok refs => acc ++ refs
    | .error _ => acc) []
  consolidateReferences allReferences

instance {ε α : Type} [DecidableEq ε] [DecidableEq α] : DecidableEq (Except ε α) := fun a b =>
  match a, b with
  | .ok x, .ok y =>
      if h : x = y then isTrue (by rw [h])
      else isFalse (by intro hc; cases hc; exact h rfl)
  | .error x, .error y =>
      if h : x = y then isTrue (by rw [h])
      else isFalse (by intro hc; cases hc; exact h rfl)
  | .ok _, .error _ => isFalse (by intro hc; cases hc)
  | .error _, .ok _ => isFalse (by intro hc; cases hc)

-- URL model (src/convex/utils/url.ts and the URL/URLSearchParams
-- operations used by runs.ts).  A URL is modelled by its pathname and its
-- insertion-ordered search-parameter list; the scheme/host part is common
-- to every URL the crawler builds and plays no role in any claim.
-- URLSearchParams serialization is modelled without percent-encoding: the
-- keys and values in every claim are plain ASCII tokens.

/-- Structured model of a URL: pathname plus ordered search parameters. -/
structure UrlModel where
  pathname : String
  params : List (String × String)
deriving DecidableEq, Repr

/-- One path segment argument of buildURL (string | number). -/
inductive PathSeg where
  | str (s : String)
  | num (n : Int)
deriving DecidableEq, Repr

/-- String(segment) for a path segment. -/
def pathSegToString : PathSeg → String
  | .str s => s
  | .num n => toString n

/-- One query-parameter value accepted by buildURL
(string | number | boolean | null | undefined). -/
inductive PVal where
  | str (s : String)
  | num (n : Int)
  | bool (b : Bool)
  | null
  | undef
deriving DecidableEq, Repr

/-- String(value) for a defined parameter value. -/
def pvalToString : PVal → String
  | .str s => s
  | .num n => toString n
  | .bool b => if b then "true" else "false"
  | .null => "null"
  | .undef => "undefined"

def collapseSlashesAux : Bool → List Char → List Char
  | _, [] => []
  | prevSlash, c :: rest =>
      if c = '/' then
        if prevSlash then collapseSlashesAux true rest
        else '/' :: collapseSlashesAux true rest
      else
        c :: collapseSlashesAux false rest

/-- Replace every run of slashes by a single slash (the /\/+/g replace). -/
def collapseSlashes (s : String) : String :=
  String.mk (collapseSlashesAux false s.data)

def joinWith (sep : String) : List String → String
  | [] => ""
  | [x] => x
  | x :: y :: rest => x ++ sep ++ joinWith sep (y :: rest)

/-- Build a URL from a base URL, path segments and a parameter record
(buildURL, src/convex/utils/url.ts lines 10-31).  The parameter record is
given in its JS enumeration order; null/undefined entries are skipped and
the rest appended, in order, after any parameters already on the base URL. -/
def buildURL (baseUrl : UrlModel) (pathSegments : List PathSeg)
    (params : List (String × PVal)) : UrlModel :=
  let segments : List String := baseUrl.pathname :: pathSegments.map pathSegToString
  let pathname := collapseSlashes (joinWith "/" (segments.filter (fun s => s ≠ "")))
  { pathname := pathname
    params := params.foldl (fun acc kv =>
      match kv.2 with
      | .null => acc
      | .undef => acc
      | v => acc ++ [(kv.1, pvalToString v)]) baseUrl.params }

/-- Serialized query string of a parameter list (URLSearchParams.toString
without percent-encoding). -/
def searchParamsToString (ps : List (String × String)) : String :=
  joinWith "&" (ps.map (fun kv => kv.1 ++ "=" ++ kv.2))

/-- Serialized path+query form of a URL (URL.toString modulo the constant
origin and percent-encoding). -/
def urlToString (u : UrlModel) : String :=
  u.pathname ++ (if u.params.isEmpty then "" else "?" ++ searchParamsToString u.params)

/-- URLSearchParams.delete(name): remove every parameter with the name. -/
def spDelete (ps : List (String × String)) (k : String) : List (String × String) :=
  ps.filter (fun e => e.1 ≠ k)

def spSetAux (k v : String) : List (String × String) → List (String × String)
  | [] => []
  | e :: rest =>
      if e.1 = k then (k, v) :: rest.filter (fun x => x.1 ≠ k)
      else e :: spSetAux k v rest

/-- URLSearchParams.set(name, value): replace the first parameter with the
name (removing any later ones), or append when absent. -/
def spSet (ps : List (String × String)) (k v : String) : List (String × String) :=
  if ps.any (fun e => e.1 = k) then spSetAux k v ps
  else ps ++ [(k, v)]

/-- Presence test for a parameter name. -/
def spHas (ps : List (String × String)) (k : String) : Bool :=
  ps.any (fun e => e.1 = k)

-- Run records and the page-end bookkeeping (src/convex/runs.ts).

inductive RunStatus where
  | pending
  | in_progress
  | completed
  | failed
deriving DecidableEq, Repr

/-- A crawl run document (runs table, src/convex/runs.ts createRun). -/
structure Run where
  url : UrlModel
  itemsTarget : Int
  itemsRead : Int
  status : RunStatus
  priority : Int
  error : Option String := none
  updatedAt : Int := 0
  finishedAt : Option Int := none
deriving DecidableEq, Repr

/-- The next-cursor argument of endRunTask
(v.optional(v.union(v.string(), v.number()))). -/
abbrev CursorVal : Type := Sum String Int

/-- JS truthiness of a cursor value (the empty string and 0 are falsy). -/
def cursorTruthy : CursorVal → Bool
  | .inl s => s != ""
  | .inr n => n != 0

/-- Truthiness of the optional cursor argument. -/
def cursorOptTruthy : Option CursorVal → Bool
  | none => false
  | some c => cursorTruthy c

/-- nextCursor.toString() (only reached on a truthy cursor). -/
def cursorToStringOpt : Option CursorVal → String
  | some (.inl s) => s
  | some (.inr n) => toString n
  | none => "undefined"

/-- Finish one page of a run (endRunTask, src/convex/runs.ts lines 68-103):
add the page count, set or delete the cursor query parameter by the JS
truthiness of the reported next cursor, and mark the run completed exactly
when the total reaches the target, the page was empty, or the cursor is
falsy; otherwise back to pending with the error cleared.  Date.now() is
passed in as the now argument. -/
def endRunTask (run : Run) (runItemsRead : Int) (nextCursor : Option CursorVal)
    (now : Int) : Run :=
  let totalItemsRead := run.itemsRead + runItemsRead
  let nextUrl :=
    if cursorOptTruthy nextCursor then
      { run.url with params := spSet run.url.params "cursor" (cursorToStringOpt nextCursor) }
    else
      { run.url with params := spDelete run.url.params "cursor" }
  let isComplete : Bool :=
    decide (totalItemsRead ≥ run.itemsTarget) || decide (runItemsRead = 0) ||
      !cursorOptTruthy nextCursor
  { run with
    status := if isComplete then .completed else .pending
    itemsRead := totalItemsRead
    url := nextUrl
    updatedAt := now
    finishedAt := if isComplete then some now else none
    error := none }

-- Database model: the Convex tables touched by the snapshot store
-- (src/convex/entitySnapshots.ts), the image pipeline
-- (src/convex/images.ts) and the tag helpers (src/convex/tags.ts).
-- Document ids are modelled as naturals drawn from a fresh-id counter.
-- Index queries (.first()) scan in insertion order, which agrees with the
-- index order on the creation-time tiebreaker for documents sharing the
-- indexed key, and every query below filters on an exact key.

/-- Snapshot document (entitySnapshots table).  rawData holds the parsed
form of the stored JSON string: the pipeline stores JSON.stringify(item)
and reads it back with JSON.parse, an identity round-trip on the JSON
values modelled here. -/
structure SnapDoc where
  sid : Nat
  entityType : String
  entityId : Int
  parentId : Option Int := none
  queryKey : String := ""
  rawData : Json
  processedDocumentId : Option Nat := none
deriving DecidableEq, Repr

/-- Reaction counters of an image (ImageStats in civitai/validators.ts). -/
structure ImageStats where
  cryCount : Int
  laughCount : Int
  likeCount : Int
  heartCount : Int
  commentCount : Int
deriving DecidableEq, Repr

/-- Image document (images table). -/
structure ImageDoc where
  docId : Nat
  imageId : Int
  url : String
  width : Int
  height : Int
  nsfw : Bool
  nsfwLevel : String
  createdAt : String
  postId : Int
  blurHash : String
  username : Option String
  storageKey : Option String
  models : List ModelReference
  totalReactions : Int
  stats : ImageStats
  entitySnapshotId : Nat
deriving DecidableEq, Repr

/-- Tag document (tags table; the unused optional description/color
fields, never set on the ensureTag path, are omitted). -/
structure TagDoc where
  tid : Nat
  name : String
  isInternal : Bool
  createdAt : Int
  updatedAt : Int
deriving DecidableEq, Repr

/-- Image-tag relationship document (imageTags table). -/
structure ImageTagDoc where
  imageId : Nat
  tagId : Nat
  createdAt : Int
deriving DecidableEq, Repr

/-- One (sourceUrl, storageKey) asset task.  The source builds storageKey
with a TypeScript non-null assertion that performs no runtime check, so an
absent storage key passes through as undefined. -/
structure StorageTask where
  sourceUrl : String
  storageKey : Option String
deriving DecidableEq, Repr

/-- The database state, the task batches handed to the scheduler for
internal.storage.enqueue, and the fresh-id counter. -/
structure DB where
  images : List ImageDoc := []
  snaps : List SnapDoc := []
  tags : List TagDoc := []
  imageTags : List ImageTagDoc := []
  scheduled : List (List StorageTask) := []
  nextId : Nat := 0
deriving DecidableEq, Repr

/-- Index lookup by natural image id (getImageByImageId, first match). -/
def getImageByImageId (db : DB) (imageId : Int) : Option ImageDoc :=
  db.images.find? (fun i => i.imageId = imageId)

/-- Load a snapshot by document id (getEntitySnapshot). -/
def getEntitySnapshot (db : DB) (entitySnapshotId : Nat) : Option SnapDoc :=
  db.snaps.find? (fun s => s.sid = entitySnapshotId)

/-- Patch a snapshot with the derived-document back-link
(backlinkProcessedDocument, src/convex/entitySnapshots.ts lines 47-49). -/
def backlinkProcessedDocument (db : DB) (entitySnapshotId : Nat)
    (processedDocumentId : Nat) : DB :=
  { db with snaps := db.snaps.map (fun s =>
      if s.sid = entitySnapshotId then
        { s with processedDocumentId := some processedDocumentId }
      else s) }

-- Raw snapshot store: insert-if-absent (insertEntitySnapshots,
-- src/convex/entitySnapshots.ts lines 22-45).

/-- Argument record of insertEntitySnapshots (the entitySnapshots table
validator). -/
structure SnapArg where
  entityType : String
  entityId : Int
  parentId : Option Int := none
  queryKey : String := ""
  rawData : Json
deriving DecidableEq, Repr

/-- Per-item result of insertEntitySnapshots: the spread argument plus the
inserted flag and the (existing or new) snapshot id. -/
structure SnapInsRes where
  arg : SnapArg
  inserted : Bool
  entitySnapshotId : Nat
deriving DecidableEq, Repr

/-- Idempotent snapshot insert: find by the (entityType, entityId) index
first; on a hit return the existing id with inserted=false and leave the
stored row untouched, else insert. -/
def insertEntitySnapshots (db : DB) : List SnapArg → DB × List SnapInsRes
  | [] => (db, [])
  | arg :: rest =>
      match db.snaps.find? (fun s =>
          s.entityType = arg.entityType && s.entityId = arg.entityId) with
      | some existing =>
          let (db1, rs) := insertEntitySnapshots db rest
          (db1, ⟨arg, false, existing.sid⟩ :: rs)
      | none =>
          let sid := db.nextId
          let db1 := { db with
            snaps := db.snaps ++
              [{ sid := sid
                 entityType := arg.entityType
                 entityId := arg.entityId
                 parentId := arg.parentId
                 queryKey := arg.queryKey
                 rawData := arg.rawData }]
            nextId := db.nextId + 1 }
          let (db2, rs) := insertEntitySnapshots db1 rest
          (db2, ⟨arg, true, sid⟩ :: rs)

-- Zod Image schema (civitai/validators.ts): structural validation of a
-- raw payload.  The .url() and .datetime() string-format refinements are
-- modelled by the executable approximations below; no claim depends on
-- which strings pass them, only on parse success or failure as a whole.

def jNum : Option Json → Option Int
  | some (.num n) => some n
  | _ => none

def jStr : Option Json → Option String
  | some (.str s) => some s
  | _ => none

def jBool : Option Json → Option Bool
  | some (.bool b) => some b
  | _ => none

/-- z.string().nullable(): a string or null. -/
def jStrOrNull : Option Json → Option (Option String)
  | some (.str s) => some (some s)
  | some .null => some none
  | _ => none

/-- z.record(z.string(), z.unknown()).nullable(): an object or null. -/
def jRecordOrNull : Option Json → Option (Option Json)
  | some (.obj fs) => some (some (.obj fs))
  | some .null => some none
  | _ => none

/-- Approximation of the zod .url() refinement. -/
def isUrlString (s : String) : Bool :=
  strStartsWith s "http://" || strStartsWith s "https://"

/-- Approximation of the zod .datetime() refinement (ISO 8601 UTC). -/
def isDatetimeString (s : String) : Bool :=
  s.data.any (fun c => c = 'T') &&
    (match s.data.getLast? with
     | some c => c = 'Z'
     | none => false)

/-- The NSFWLevel enum. -/
def nsfwLevels : List String := ["None", "Soft", "Mature", "X", "XXX"]

/-- Validated image payload (z.infer of Image); meta and username keep
their nullability (none models null). -/
structure ParsedImage where
  id : Int
  url : String
  hash : String
  width : Int
  height : Int
  nsfw : Bool
  nsfwLevel : String
  createdAt : String
  postId : Int
  stats : ImageStats
  meta : Option Json
  username : Option String
deriving DecidableEq, Repr

/-- ImageStats sub-schema. -/
def parseStats (j : Option Json) : Option ImageStats :=
  match j with
  | some (.obj fs) => do
      let cry ← jNum (lookupProp (.obj fs) "cryCount")
      let laugh ← jNum (lookupProp (.obj fs) "laughCount")
      let like ← jNum (lookupProp (.obj fs) "likeCount")
      let heart ← jNum (lookupProp (.obj fs) "heartCount")
      let comment ← jNum (lookupProp (.obj fs) "commentCount")
      pure { cryCount := cry, laughCount := laugh, likeCount := like,
             heartCount := heart, commentCount := comment }
  | _ => none

/-- Image.safeParse on an already-JSON.parsed payload: some on success,
none on any schema violation. -/
def parseImage (j : Json) : Option ParsedImage :=
  match j with
  | .obj fs => do
      let id ← jNum (lookupProp (.obj fs) "id")
      let url ← jStr (lookupProp (.obj fs) "url")
      if isUrlString url then
        let hash ← jStr (lookupProp (.obj fs) "hash")
        let width ← jNum (lookupProp (.obj fs) "width")
        let height ← jNum (lookupProp (.obj fs) "height")
        let nsfw ← jBool (lookupProp (.obj fs) "nsfw")
        let nsfwLevel ← jStr (lookupProp (.obj fs) "nsfwLevel")
        if nsfwLevels.contains nsfwLevel then
          let createdAt ← jStr (lookupProp (.obj fs) "createdAt")
          if isDatetimeString createdAt then
            let postId ← jNum (lookupProp (.obj fs) "postId")
            let stats ← parseStats (lookupProp (.obj fs) "stats")
            let meta ← jRecordOrNull (lookupProp (.obj fs) "meta")
            let username ← jStrOrNull (lookupProp (.obj fs) "username")
            pure { id := id, url := url, hash := hash, width := width,
                   height := height, nsfw := nsfw, nsfwLevel := nsfwLevel,
                   createdAt := createdAt, postId := postId, stats := stats,
                   meta := meta, username := username }
          else none
        else none
      else none
  | _ => none

-- Image ingestion (src/convex/images.ts).

/-- The deterministic asset storage key (generateStorageKey, lines 111-113). -/
def generateStorageKey (contentType : String) (id : Int) : String :=
  contentType ++ "/" ++ toString id

/-- Failures thrown by processEntityToImage for one item: unknown snapshot
id, schema-invalid payload, an exception escaping the reference extractor,
or the .unique() query not finding exactly one image after insert. -/
inductive PErr where
  | invalidSnapshot
  | parseFailure
  | extractorThrow (e : RTErr)
  | uniqueViolation
deriving DecidableEq, Repr

/-- Successful per-item result of processEntityToImage. -/
structure ProcessResult where
  entitySnapshotId : Nat
  entitySnapshot : SnapDoc
  inserted : Bool
  image : ImageDoc
deriving DecidableEq, Repr

/-- The new image document inserted for a parsed payload: copied fields,
blurHash from the payload hash, the deterministic storage key, the
extracted references and the reaction-count aggregate. -/
def mkImageDoc (db : DB) (entitySnapshotId : Nat) (parsed : ParsedImage)
    (models : List ModelReference) : ImageDoc :=
  { docId := db.nextId
    imageId := parsed.id
    url := parsed.url
    width := parsed.width
    height := parsed.height
    nsfw := parsed.nsfw
    nsfwLevel := parsed.nsfwLevel
    createdAt := parsed.createdAt
    postId := parsed.postId
    blurHash := parsed.hash
    username := parsed.username
    storageKey := some (generateStorageKey "images" parsed.id)
    models := models
    totalReactions := parsed.stats.likeCount + parsed.stats.heartCount +
      parsed.stats.laughCount + parsed.stats.cryCount + parsed.stats.commentCount
    stats := parsed.stats
    entitySnapshotId := entitySnapshotId }

/-- The .unique() index query: exactly one image with the natural key, else
none (the source then fails via the thrown multiple-documents error or the
null dereference after the non-null assertion). -/
def uniqueImageByImageId (db : DB) (imageId : Int) : Option ImageDoc :=
  match db.images.filter (fun i => i.imageId = imageId) with
  | [image] => some image
  | _ => none

/-- Ingest one snapshot (processEntityToImage, src/convex/images.ts lines
70-109): load and parse the snapshot; a natural-key hit back-links the
snapshot when needed and returns the existing image with inserted=false;
otherwise extract references from meta, insert, re-fetch via the unique
natural-key query and back-link.  The returned DB reflects every write
performed before a throw (Convex does not roll back inside the enclosing
mutation when the caller catches). -/
def processEntityToImage (db : DB) (entitySnapshotId : Nat) :
    DB × Except PErr ProcessResult :=
  match getEntitySnapshot db entitySnapshotId with
  | none => (db, .error .invalidSnapshot)
  | some entitySnapshot =>
    match parseImage entitySnapshot.rawData with
    | none => (db, .error .parseFailure)
    | some parsed =>
      match getImageByImageId db parsed.id with
      | some existingImage =>
          let db1 :=
            if entitySnapshot.processedDocumentId ≠ some existingImage.docId then
              backlinkProcessedDocument db entitySnapshotId existingImage.docId
            else db
          (db1, .ok ⟨entitySnapshotId, entitySnapshot, false, existingImage⟩)
      | none =>
          match extractModelReferences (parsed.meta.getD (.obj [])) with
          | .error e => (db, .error (.extractorThrow e))
          | .ok models =>
              let newDoc := mkImageDoc db entitySnapshotId parsed models
              let db1 := { db with images := db.images ++ [newDoc]
                                   nextId := db.nextId + 1 }
              match uniqueImageByImageId db1 parsed.id with
              | some image =>
                  (backlinkProcessedDocument db1 entitySnapshotId image.docId,
                   .ok ⟨entitySnapshotId, entitySnapshot, true, image⟩)
              | none => (db1, .error .uniqueViolation)

/-- Per-item result of the batch: the catch branch in insertImages records
the snapshot id with the caught error and inserted=false. -/
abbrev ItemResult : Type := Except (Nat × PErr) ProcessResult

/-- The asyncMap over the batch with its per-item try/catch. -/
def processItems (db : DB) : List Nat → DB × List ItemResult
  | [] => (db, [])
  | sid :: rest =>
      let (db1, r) := processEntityToImage db sid
      let (db2, rs) := processItems db1 rest
      match r with
      | .ok pr => (db2, (.ok pr : ItemResult) :: rs)
      | .error e => (db2, (.error (sid, e) : ItemResult) :: rs)

-- Tag helpers (src/convex/tags.ts) used by insertImages.

/-- INTERNAL_TAGS.untagged. -/
def untaggedTagName : String := "_untagged"

/-- JS String.prototype.trim (ASCII whitespace). -/
def jsStrTrim (s : String) : String :=
  String.mk (((s.data.dropWhile (fun c => c.isWhitespace)).reverse.dropWhile
    (fun c => c.isWhitespace)).reverse)

/-- Errors thrown by createTag. -/
inductive TagErr where
  | emptyName
  | nameTooLong
  | duplicateName
deriving DecidableEq, Repr

/-- Find a tag by (lowercased) name via the by_name index (getTagByName). -/
def getTagByName (db : DB) (name : String) : Option TagDoc :=
  db.tags.find? (fun t => t.name = jsStrToLower name)

/-- Create a tag (createTag, src/convex/tags.ts lines 53-90). -/
def createTag (db : DB) (name : String) (isInternal : Bool) (now : Int) :
    Except TagErr (DB × Nat) :=
  let normalizedName := jsStrToLower (jsStrTrim name)
  if normalizedName = "" then .error .emptyName
  else if normalizedName.length > 50 then .error .nameTooLong
  else
    match getTagByName db normalizedName with
    | some _ => .error .duplicateName
    | none =>
        let tid := db.nextId
        .ok ({ db with
                tags := db.tags ++
                  [{ tid := tid, name := normalizedName, isInternal := isInternal,
                     createdAt := now, updatedAt := now }]
                nextId := db.nextId + 1 }, tid)

/-- Find-or-create a tag (ensureTag, src/convex/tags.ts lines 92-113). -/
def ensureTag (db : DB) (name : String) (isInternal : Bool) (now : Int) :
    Except TagErr (DB × Nat) :=
  let normalizedName := jsStrToLower (jsStrTrim name)
  match getTagByName db normalizedName with
  | some existing => .ok (db, existing.tid)
  | none => createTag db normalizedName isInternal now

/-- The image batch mutation (insertImages, src/convex/images.ts lines
24-68): ensure the untagged tag, process each item with per-item catch, tag
the newly inserted images, and schedule one internal.storage.enqueue call
whose tasks are the (url, storageKey) pairs of every result carrying an
image. -/
def insertImages (db : DB) (items : List Nat) (now : Int) :
    Except TagErr (DB × List ItemResult) :=
  match ensureTag db untaggedTagName true now with
  | .error e => .error e
  | .ok (db0, untaggedTagId) =>
      let (db1, processedResults) := processItems db0 items
      let imageEntityPairs := processedResults.filterMap (fun r => r.toOption)
      let newlyInsertedImages := imageEntityPairs.filter (fun e => e.inserted)
      let db2 := newlyInsertedImages.foldl (fun d result =>
        { d with imageTags := d.imageTags ++
            [{ imageId := result.image.docId, tagId := untaggedTagId, createdAt := now }] }) db1
      let tasks := imageEntityPairs.map (fun e =>
        StorageTask.mk e.image.url e.image.storageKey)
      let db3 := { db2 with scheduled := db2.scheduled ++ [tasks] }
      .ok (db3, processedResults)

-- Concrete sample data used by witnesses and counterexamples.

/-- A schema-valid raw image payload with natural key 42. -/
def payloadA : Json :=
  .obj [("id", .num 42), ("url", .str "https://img.example/a.png"),
        ("hash", .str "bh42"), ("width", .num 512), ("height", .num 768),
        ("nsfw", .bool false), ("nsfwLevel", .str "None"),
        ("createdAt", .str "2024-01-01T00:00:00Z"), ("postId", .num 7),
        ("stats", .obj [("cryCount", .num 1), ("laughCount", .num 2),
          ("likeCount", .num 3), ("heartCount", .num 4), ("commentCount", .num 5)]),
        ("meta", .null), ("username", .str "alice")]

/-- A schema-valid raw image payload (natural key 43) whose meta blob makes
extractModelReferences throw: the extractor argument is the meta object, so
the poisoned resources array sits under a nested meta key. -/
def payloadPoison : Json :=
  .obj [("id", .num 43), ("url", .str "https://img.example/b.png"),
        ("hash", .str "bh43"), ("width", .num 512), ("height", .num 768),
        ("nsfw", .bool false), ("nsfwLevel", .str "None"),
        ("createdAt", .str "2024-01-01T00:00:00Z"), ("postId", .num 7),
        ("stats", .obj [("cryCount", .num 0), ("laughCount", .num 0),
          ("likeCount", .num 0), ("heartCount", .num 0), ("commentCount", .num 0)]),
        ("meta", .obj [("meta", .obj [("resources",
          .arr [.obj [("type", .str "lora"), ("name", .num 5)]])])]),
        ("username", .null)]

/-- The snapshot document storing payloadA. -/
def snapA : SnapDoc :=
  { sid := 1, entityType := "image", entityId := 42, rawData := payloadA }

/-- The validated form of payloadA. -/
def parsedA : ParsedImage :=
  { id := 42
    url := "https://img.example/a.png"
    hash := "bh42"
    width := 512
    height := 768
    nsfw := false
    nsfwLevel := "None"
    createdAt := "2024-01-01T00:00:00Z"
    postId := 7
    stats := { cryCount := 1, laughCount := 2, likeCount := 3, heartCount := 4,
               commentCount := 5 }
    meta := none
    username := some "alice" }

/-- A database holding one unprocessed snapshot of payloadA. -/
def dbA : DB :=
  { snaps := [{ sid := 1, entityType := "image", entityId := 42, rawData := payloadA }]
    nextId := 2 }

/-- A database holding one unprocessed snapshot of payloadPoison. -/
def dbPoison : DB :=
  { snaps := [{ sid := 1, entityType := "image", entityId := 43, rawData := payloadPoison }]
    nextId := 2 }

/-- Boolean success test for an Except value. -/
def exceptIsOk {ε α : Type} : Except ε α → Bool
  | .ok _ => true
  | .error _ => false

/-- The discriminator keys of a reference when computing them does not
throw (and the empty list when it does). -/
def refKeysD (r : ModelReference) : List String :=
  match refKeys r with
  | .ok ks => ks
  | .error _ => []

/-- The three-reference list refuting consolidation idempotence: the second
reference merges into the first (keyed by its hash) and acquires versionId
1 there, while the third is stored separately under versionId 1; a second
pass then merges the two surviving references. -/
def exC4 : List ModelReference :=
  [{ type := "checkpoint", hash := some (.str "h1") },
   { type := "checkpoint", versionId := some (.num 1), hash := some (.str "h1") },
   { type := "checkpoint", versionId := some (.num 1), hash := some (.str "h2") }]

/-- Image metadata carrying the same checkpoint twice: a resources entry
with only a name, and a hashes.model entry with only a hash. -/
def mkHashNameMeta (N H : String) : Json :=
  .obj [("meta", .obj
    [("resources", .arr [.obj [("type", .str "checkpoint"), ("name", .str N)]]),
     ("hashes", .obj [("model", .str H)])])]

/-- One duplicate arrival: dbDup already holds the image derived from
payloadA together with its processed snapshot. -/
def dbDup : DB := (processItems dbA [1]).1

/-- Failure of one batch item detectable on the starting database: missing
snapshot or schema-invalid payload. -/
def BadItem (db : DB) (sid : Nat) : Prop :=
  getEntitySnapshot db sid = none ∨
  (∃ snap, getEntitySnapshot db sid = some snap ∧ parseImage snap.rawData = none)

/-- The snapshot sid is stored and its payload parses to an image with
natural key iid. -/
def SnapParses (db : DB) (sid : Nat) (iid : Int) : Prop :=
  ∃ snap, getEntitySnapshot db sid = some snap ∧
    ∃ p, parseImage snap.rawData = some p ∧ p.id = iid

/-- The snapshot sid is stored and back-linked to document d. -/
def Linked (db : DB) (sid d : Nat) : Prop :=
  ∃ snap, getEntitySnapshot db sid = some snap ∧
    snap.processedDocumentId = some d

-- Supporting lemmas.

theorem spHas_spDelete (ps : List (String × String)) (k : String) :
    spHas (spDelete ps k) k = false := by
  induction ps with
  | nil => rfl
  | cons e rest ih =>
      by_cases h : e.1 = k <;>
        simp_all [spDelete, spHas, List.filter_cons, List.any_cons]

theorem cursor_falsy_iff (c : Option CursorVal) :
    (!cursorOptTruthy c) = true ↔
      (c = none ∨ c = some (.inl "") ∨ c = some (.inr 0)) := by
  rcases c with _ | c
  · simp [cursorOptTruthy]
  · rcases c with s | n
    · by_cases h : s = "" <;>
        simp [cursorOptTruthy, cursorTruthy, h, Sum.inl.injEq, Sum.inr.injEq]
    · by_cases h : n = 0 <;>
        simp [cursorOptTruthy, cursorTruthy, h, Sum.inl.injEq, Sum.inr.injEq]

-- C10

/-- C10: endRunTask treats a next cursor equal to the number 0 or the empty
string exactly as if no cursor were supplied: the result coincides with the
cursor-absent call, the cursor query parameter is deleted, and the run is
marked completed regardless of the page size or the running total. -/
theorem endRunTask_treats_falsy_cursor_as_absent (run : Run) (runItemsRead : Int)
    (now : Int) :
    endRunTask run runItemsRead (some (.inl "")) now =
      endRunTask run runItemsRead none now ∧
    endRunTask run runItemsRead (some (.inr 0)) now =
      endRunTask run runItemsRead none now ∧
    (endRunTask run runItemsRead none now).status = .completed ∧
    spHas (endRunTask run runItemsRead none now).url.params "cursor" = false := by
  refine ⟨rfl, rfl, ?_, ?_⟩
  · simp [endRunTask, cursorOptTruthy]
  · simp [endRunTask, cursorOptTruthy, spHas_spDelete]

-- C3

/-- C3 (counterexample): a next cursor that is present but equal to the
number 0 completes the run even though items were read, the total is below
the target and the cursor is not absent — refuting the as-stated completion
iff-condition (total ≥ target, zero items, or cursor absent). -/
theorem endRunTask_completion_counterexample :
    (endRunTask
      { url := { pathname := "/api/v1/images", params := [("cursor", "c1")] }
        itemsTarget := 10
        itemsRead := 0
        status := .in_progress
        priority := 10 } 3 (some (.inr 0)) 5).status = .completed ∧
    ¬(((0 : Int) + 3 ≥ 10) ∨ ((3 : Int) = 0) ∨
      (some (Sum.inr 0) : Option CursorVal) = none) := by
  constructor
  · decide
  · decide

/-- C3 (amended): the run is marked completed iff the new total reaches the
target, the page was empty, or the reported cursor is absent or falsy (the
number 0 or the empty string); otherwise it returns to pending with the
URL's cursor parameter set to the cursor's string form and the stored error
cleared.  The items-read counter always advances by the page size. -/
theorem endRunTask_completion_conditions (run : Run) (runItemsRead : Int)
    (nextCursor : Option CursorVal) (now : Int) :
    ((endRunTask run runItemsRead nextCursor now).status = .completed ↔
      (run.itemsRead + runItemsRead ≥ run.itemsTarget ∨ runItemsRead = 0 ∨
       nextCursor = none ∨ nextCursor = some (.inl "") ∨
       nextCursor = some (.inr 0))) ∧
    ((endRunTask run runItemsRead nextCursor now).status ≠ .completed →
      (endRunTask run runItemsRead nextCursor now).status = .pending ∧
      (endRunTask run runItemsRead nextCursor now).url.params =
        spSet run.url.params "cursor" (cursorToStringOpt nextCursor) ∧
      (endRunTask run runItemsRead nextCursor now).error = none) ∧
    (endRunTask run runItemsRead nextCursor now).itemsRead =
      run.itemsRead + runItemsRead := by
  have hfalsy := cursor_falsy_iff nextCursor
  by_cases h1 : run.itemsRead + runItemsRead ≥ run.itemsTarget <;>
    by_cases h2 : runItemsRead = 0 <;>
      cases hB : cursorOptTruthy nextCursor <;>
        simp only [Bool.not_false, Bool.not_true, hB] at hfalsy <;>
          simp_all [endRunTask, hB]

/-- C3 (witness): a concrete pending transition obtained from the
completion-conditions theorem. -/
theorem endRunTask_completion_conditions_witness :
    (endRunTask
      { url := { pathname := "/api/v1/images", params := [("cursor", "c1")] }
        itemsTarget := 10
        itemsRead := 0
        status := .in_progress
        priority := 10 } 3 (some (.inl "c2")) 5).itemsRead = 0 + 3 :=
  (endRunTask_completion_conditions
    { url := { pathname := "/api/v1/images", params := [("cursor", "c1")] }
      itemsTarget := 10
      itemsRead := 0
      status := .in_progress
      priority := 10 } 3 (some (.inl "c2")) 5).2.2

-- C5

/-- C5 (code bug): extractModelReferences is not total — on metadata whose
resources array carries a truthy non-string name, the per-extractor
try/catch is bypassed because consolidateReferences (which calls
name.toLowerCase()) runs outside it, and the TypeError propagates to the
caller instead of the promised reference list. -/
theorem extractModelReferences_throws_on_nonstring_resource_name :
    extractModelReferences (.obj [("meta", .obj [("resources",
      .arr [.obj [("type", .str "lora"), ("name", .num 5)]])])]) =
      .error .typeError := by
  decide

-- C9

/-- C9 (counterexample): two parameter records with exactly the same
key-value pairs in different enumeration orders produce different URLs and
different serialized query strings — buildURL does not sort keys. -/
theorem buildURL_param_order_counterexample :
    buildURL { pathname := "/api/v1", params := [] } [.str "images"]
        [("modelId", .num 7), ("nsfw", .bool true)] ≠
      buildURL { pathname := "/api/v1", params := [] } [.str "images"]
        [("nsfw", .bool true), ("modelId", .num 7)] ∧
    urlToString (buildURL { pathname := "/api/v1", params := [] } [.str "images"]
        [("modelId", .num 7), ("nsfw", .bool true)]) ≠
      urlToString (buildURL { pathname := "/api/v1", params := [] } [.str "images"]
        [("nsfw", .bool true), ("modelId", .num 7)]) := by
  constructor
  · decide
  · decide

theorem buildURL_params_foldl (ps : List (String × PVal)) (acc : List (String × String)) :
    ps.foldl (fun acc kv =>
      match kv.2 with
      | .null => acc
      | .undef => acc
      | v => acc ++ [(kv.1, pvalToString v)]) acc =
    acc ++ (ps.filter (fun kv => kv.2 ≠ PVal.null && kv.2 ≠ PVal.undef)).map
      (fun kv => (kv.1, pvalToString kv.2)) := by
  induction ps generalizing acc with
  | nil => simp
  | cons kv rest ih =>
      rcases kv with ⟨k, v⟩
      cases v <;> simp [List.foldl_cons, ih, List.filter_cons]

/-- C9 (amended): buildURL is deterministic in the ordered parameter
record — its query parameter list is exactly the base URL's parameters
followed by the record's non-null, non-undefined entries, stringified, in
record enumeration order, with no key sorting; records listing the same
pairs in different orders can therefore serialize differently. -/
theorem buildURL_query_in_record_order (baseUrl : UrlModel)
    (pathSegments : List PathSeg) (params : List (String × PVal)) :
    (buildURL baseUrl pathSegments params).params =
      baseUrl.params ++
        (params.filter (fun kv => kv.2 ≠ PVal.null && kv.2 ≠ PVal.undef)).map
          (fun kv => (kv.1, pvalToString kv.2)) := by
  rw [show (buildURL baseUrl pathSegments params).params =
      params.foldl (fun acc kv =>
        match kv.2 with
        | .null => acc
        | .undef => acc
        | v => acc ++ [(kv.1, pvalToString v)]) baseUrl.params from rfl]
  exact buildURL_params_foldl params baseUrl.params

-- C2

/-- C2: snapshot insert-if-absent is idempotent.  Starting from a database
with no row for the key, a first call inserts one row and reports
inserted=true; a second call with the same (entityType, entityId) — even
with a different payload — reports inserted=false with the first row's id,
changes nothing, and the stored row still carries the first call's
rawData. -/
theorem insertEntitySnapshots_idempotent (db : DB) (arg arg2 : SnapArg)
    (hkey : arg2.entityType = arg.entityType ∧ arg2.entityId = arg.entityId)
    (habs : ∀ s ∈ db.snaps,
      ¬(s.entityType = arg.entityType ∧ s.entityId = arg.entityId)) :
    (insertEntitySnapshots db [arg]).2 = [⟨arg, true, db.nextId⟩] ∧
    (insertEntitySnapshots (insertEntitySnapshots db [arg]).1 [arg2]).2 =
      [⟨arg2, false, db.nextId⟩] ∧
    (insertEntitySnapshots (insertEntitySnapshots db [arg]).1 [arg2]).1 =
      (insertEntitySnapshots db [arg]).1 ∧
    ((insertEntitySnapshots db [arg]).1).snaps.filter
      (fun s => s.entityType = arg.entityType && s.entityId = arg.entityId) =
      [{ sid := db.nextId
         entityType := arg.entityType
         entityId := arg.entityId
         parentId := arg.parentId
         queryKey := arg.queryKey
         rawData := arg.rawData }] := by
  have hf : db.snaps.find?
      (fun s => s.entityType = arg.entityType && s.entityId = arg.entityId) = none := by
    rw [List.find?_eq_none]
    intro x hx
    simpa using habs x hx
  have hfilter : db.snaps.filter
      (fun s => s.entityType = arg.entityType && s.entityId = arg.entityId) = [] := by
    rw [List.filter_eq_nil_iff]
    intro x hx
    simpa using habs x hx
  have h1 : insertEntitySnapshots db [arg] =
      ({ db with
          snaps := db.snaps ++
            [{ sid := db.nextId
               entityType := arg.entityType
               entityId := arg.entityId
               parentId := arg.parentId
               queryKey := arg.queryKey
               rawData := arg.rawData }]
          nextId := db.nextId + 1 }, [⟨arg, true, db.nextId⟩]) := by
    simp [insertEntitySnapshots, hf]
  rw [h1]
  refine ⟨rfl, ?_, ?_, ?_⟩
  · simp [insertEntitySnapshots, List.find?_append, hkey.1, hkey.2, hf]
  · simp [insertEntitySnapshots, List.find?_append, hkey.1, hkey.2, hf]
  · simp [List.filter_append, hfilter]

/-- C2 (witness): the idempotence theorem at a concrete key and two
different payloads, starting from the empty database. -/
theorem insertEntitySnapshots_idempotent_witness :
    (insertEntitySnapshots ({} : DB)
      [{ entityType := "image", entityId := 42, queryKey := "q1", rawData := payloadA }]).2 =
      [⟨{ entityType := "image", entityId := 42, queryKey := "q1", rawData := payloadA },
        true, 0⟩] ∧
    (insertEntitySnapshots (insertEntitySnapshots ({} : DB)
      [{ entityType := "image", entityId := 42, queryKey := "q1", rawData := payloadA }]).1
      [{ entityType := "image", entityId := 42, queryKey := "q2", rawData := .null }]).2 =
      [⟨{ entityType := "image", entityId := 42, queryKey := "q2", rawData := .null },
        false, 0⟩] ∧
    (insertEntitySnapshots (insertEntitySnapshots ({} : DB)
      [{ entityType := "image", entityId := 42, queryKey := "q1", rawData := payloadA }]).1
      [{ entityType := "image", entityId := 42, queryKey := "q2", rawData := .null }]).1 =
      (insertEntitySnapshots ({} : DB)
        [{ entityType := "image", entityId := 42, queryKey := "q1", rawData := payloadA }]).1 ∧
    ((insertEntitySnapshots ({} : DB)
      [{ entityType := "image", entityId := 42, queryKey := "q1", rawData := payloadA }]).1).snaps.filter
      (fun s => s.entityType = "image" && s.entityId = 42) =
      [{ sid := 0
         entityType := "image"
         entityId := 42
         parentId := none
         queryKey := "q1"
         rawData := payloadA }] :=
  insertEntitySnapshots_idempotent {}
    { entityType := "image", entityId := 42, queryKey := "q1", rawData := payloadA }
    { entityType := "image", entityId := 42, queryKey := "q2", rawData := .null }
    (by decide) (by decide)

-- C4

/-- C4 (counterexample): consolidateReferences is not idempotent — on exC4
one pass returns two references and a second pass over that output merges
them into one. -/
theorem consolidateReferences_not_idempotent :
    (consolidateReferences exC4).bind consolidateReferences ≠
      consolidateReferences exC4 := by
  decide

theorem mapLookup_append_of_none {m1 m2 : List (ConsKey × ModelReference)}
    {k : ConsKey} (h : mapLookup m1 k = none) :
    mapLookup (m1 ++ m2) k = mapLookup m2 k := by
  have hf : m1.find? (fun e => e.1 = k) = none := by
    cases hx : m1.find? (fun e => e.1 = k) with
    | none => rfl
    | some v => rw [mapLookup, hx] at h; cases h
  simp [mapLookup, List.find?_append, hf]

theorem mapLookup_singleton_ne {k k2 : ConsKey} {r : ModelReference}
    (h : k2 ≠ k) : mapLookup [(k2, r)] k = none := by
  simp [mapLookup, List.find?_cons, h]

theorem tryMergeKeys_none (m : List (ConsKey × ModelReference))
    (r : ModelReference) :
    ∀ ks, (∀ k ∈ ks, mapLookup m (.str k) = none) → tryMergeKeys m r ks = none := by
  intro ks
  induction ks with
  | nil => intro _; rfl
  | cons k rest ih =>
      intro h
      rw [tryMergeKeys, h k (by simp)]
      exact ih (fun x hx => h x (by simp [hx]))

theorem mapSet_of_not_mem {m : List (ConsKey × ModelReference)} {k : ConsKey}
    {v : ModelReference} (h : mapLookup m k = none) :
    mapSet m k v = m ++ [(k, v)] := by
  have hf : m.find? (fun e => e.1 = k) = none := by
    cases hx : m.find? (fun e => e.1 = k) with
    | none => rfl
    | some w => rw [mapLookup, hx] at h; cases h
  have hany : m.any (fun e => e.1 = k) = false := by
    rw [List.find?_eq_none] at hf
    rw [List.any_eq_false]
    intro x hx
    simpa using hf x hx
  simp [mapSet, hany]

theorem consolidateCore_disjoint (L : List ModelReference) :
    ∀ (m : List (ConsKey × ModelReference)) (c : Nat),
      (∀ r ∈ L, exceptIsOk (refKeys r) = true) →
      (∀ r ∈ L, ∀ k ∈ refKeysD r, mapLookup m (.str k) = none) →
      L.Pairwise (fun a b => ∀ k ∈ refKeysD a, k ∉ refKeysD b) →
      ∃ m1 c1, consolidateCore m c L = .ok (m1, c1) ∧
        m1.map (fun e => e.2) = m.map (fun e => e.2) ++ L := by
  induction L with
  | nil => exact fun m c _ _ _ => ⟨m, c, rfl, by simp⟩
  | cons r rs ih =>
      intro m c hok hm hp
      cases hp with
      | cons hhead htail =>
      obtain ⟨ks, hks⟩ : ∃ ks, refKeys r = .ok ks := by
        cases hrk : refKeys r with
        | ok ks => exact ⟨ks, rfl⟩
        | error e =>
            have := hok r (by simp)
            rw [hrk] at this
            cases this
      have hkeysD : refKeysD r = ks := by simp [refKeysD, hks]
      cases ks with
      | nil =>
          have hstep : consolidateCore m c (r :: rs) =
              consolidateCore (m ++ [(.fresh c, r)]) (c + 1) rs := by
            simp [consolidateCore, consolidateStep, hks, bind, Except.bind, pure,
              Except.pure]
          obtain ⟨m1, c1, hcore, hvals⟩ := ih (m ++ [(.fresh c, r)]) (c + 1)
            (fun x hx => hok x (by simp [hx]))
            (fun x hx k hk => by
              rw [mapLookup_append_of_none (hm x (by simp [hx]) k hk)]
              exact mapLookup_singleton_ne (by simp))
            htail
          exact ⟨m1, c1, by rw [hstep]; exact hcore, by simp [hvals]⟩
      | cons k0 ks2 =>
          have hnone : ∀ k ∈ k0 :: ks2, mapLookup m (.str k) = none := by
            intro k hk
            exact hm r (by simp) k (by rw [hkeysD]; exact hk)
          have htm : tryMergeKeys m r (k0 :: ks2) = none :=
            tryMergeKeys_none m r _ hnone
          have hset : mapSet m (.str k0) r = m ++ [(.str k0, r)] :=
            mapSet_of_not_mem (hnone k0 (by simp))
          have hstep : consolidateCore m c (r :: rs) =
              consolidateCore (m ++ [(.str k0, r)]) c rs := by
            simp [consolidateCore, consolidateStep, hks, htm, hset, bind, Except.bind,
              pure, Except.pure]
          obtain ⟨m1, c1, hcore, hvals⟩ := ih (m ++ [(.str k0, r)]) c
            (fun x hx => hok x (by simp [hx]))
            (fun x hx k hk => by
              rw [mapLookup_append_of_none (hm x (by simp [hx]) k hk)]
              refine mapLookup_singleton_ne ?_
              intro hc
              have hk0 : k0 ∈ refKeysD r := by rw [hkeysD]; simp
              have : k0 ∉ refKeysD x := hhead x hx k0 hk0
              apply this
              have : k0 = k := by
                have := congrArg (fun z => match z with
                  | ConsKey.str s => s
                  | ConsKey.fresh _ => "") hc
                simpa using this
              rw [this]
              exact hk)
            htail
          exact ⟨m1, c1, by rw [hstep]; exact hcore, by simp [hvals]⟩

/-- C4 (amended): consolidation acts as the identity on — and hence is
idempotent on — reference lists whose key computation does not throw and
whose members pairwise share no discriminator key; it is not idempotent in
general (see the counterexample) because a merge can add a discriminator to
a stored reference without re-indexing it. -/
theorem consolidateReferences_disjoint_fixed (L : List ModelReference)
    (hok : ∀ r ∈ L, exceptIsOk (refKeys r) = true)
    (hdisj : L.Pairwise (fun a b => ∀ k ∈ refKeysD a, k ∉ refKeysD b)) :
    consolidateReferences L = .ok L ∧
    (consolidateReferences L).bind consolidateReferences =
      consolidateReferences L := by
  obtain ⟨m1, c1, hcore, hvals⟩ := consolidateCore_disjoint L [] 0 hok
    (fun r _ k _ => rfl) hdisj
  have h1 : consolidateReferences L = .ok L := by
    rw [consolidateReferences]
    rw [show (consolidateCore [] 0 L >>= fun x =>
        pure (x.1.map (fun e => e.2)) : Except RTErr (List ModelReference)) =
        (consolidateCore [] 0 L).bind (fun x => .ok (x.1.map (fun e => e.2))) from rfl]
    rw [hcore]
    show Except.ok (m1.map (fun e => e.2)) = Except.ok L
    rw [hvals]
    simp
  refine ⟨h1, ?_⟩
  rw [h1]
  exact h1

/-- C4 (witness): the disjoint-identity theorem at a concrete two-element
already-consolidated list. -/
theorem consolidateReferences_disjoint_fixed_witness :
    consolidateReferences
      [{ type := "checkpoint", hash := some (.str "aaa") },
       { type := "lora", name := some (.str "detailface") }] =
      .ok [{ type := "checkpoint", hash := some (.str "aaa") },
           { type := "lora", name := some (.str "detailface") }] ∧
    (consolidateReferences
      [{ type := "checkpoint", hash := some (.str "aaa") },
       { type := "lora", name := some (.str "detailface") }]).bind
        consolidateReferences =
      consolidateReferences
        [{ type := "checkpoint", hash := some (.str "aaa") },
         { type := "lora", name := some (.str "detailface") }] :=
  consolidateReferences_disjoint_fixed _ (by decide) (by decide)

-- C6

/-- C6 (counterexample): on metadata with both a hashes.model hash and a
name-only checkpoint resources entry, extraction returns two checkpoint
references — one with only the name and one with only the hash — not a
single reference carrying both: the two sightings share no discriminator
key and are never merged. -/
theorem extractModelReferences_hash_plus_name_counterexample :
    extractModelReferences (mkHashNameMeta "X" "H1") =
      .ok [{ type := "checkpoint", name := some (.str "X") },
           { type := "checkpoint", hash := some (.str "H1") }] ∧
    (extractModelReferences (mkHashNameMeta "X" "H1")).map List.length ≠
      .ok 1 := by
  constructor
  · decide
  · decide

theorem hashNameMeta_extractors (N H : String) (hH : H ≠ "") :
    extractFromCivitaiResources (mkHashNameMeta N H) = .ok [] ∧
    extractFromResources (mkHashNameMeta N H) =
      .ok [{ type := "checkpoint", name := some (.str N) }] ∧
    extractFromModelField (mkHashNameMeta N H) = .ok [] ∧
    extractFromHashes (mkHashNameMeta N H) =
      .ok [{ type := "checkpoint", hash := some (.str H) }] ∧
    extractFromPrompt (mkHashNameMeta N H) = .ok [] := by
  have hHb : (H != "") = true := by simp [bne, hH]
  refine ⟨rfl, rfl, rfl, ?_, rfl⟩
  simp [extractFromHashes, jsProp, jsPropChain, lookupProp, ownKeys,
    strStartsWith, listStartsWith, jsTruthyOpt, jsTruthy, hHb, bind, Except.bind,
    pure, Except.pure, mkHashNameMeta, List.find?]

theorem hashNameMeta_key_ne (N H : String) :
    ("checkpoint:name:" ++ jsStrToLower N) ≠ ("hash:" ++ H) := by
  intro hc
  exact absurd
    (congrArg (fun s => s.data.head?) hc : (some 'c' : Option Char) = some 'h')
    (by decide)

/-- C6 (amended): for every nonempty name N and hash H, metadata carrying a
name-only checkpoint resources entry and a hashes.model entry yields
exactly two checkpoint references, one holding the name and one holding the
hash; they are not consolidated into one because a name-only and a
hash-only sighting have disjoint discriminator keys. -/
theorem extractModelReferences_hash_plus_name_two_refs (N H : String)
    (hN : N ≠ "") (hH : H ≠ "") :
    extractModelReferences (mkHashNameMeta N H) =
      .ok [{ type := "checkpoint", name := some (.str N) },
           { type := "checkpoint", hash := some (.str H) }] := by
  have hNb : (N != "") = true := by simp [bne, hN]
  have hHb : (H != "") = true := by simp [bne, hH]
  obtain ⟨h1, h2, h3, h4, h5⟩ := hashNameMeta_extractors N H hH
  have hall : extractModelReferences (mkHashNameMeta N H) =
      consolidateReferences
        [{ type := "checkpoint", name := some (.str N) },
         { type := "checkpoint", hash := some (.str H) }] := by
    rw [extractModelReferences]
    simp [h1, h2, h3, h4, h5]
  rw [hall]
  have hkN : refKeys { type := "checkpoint", name := some (.str N) } =
      .ok ["checkpoint:name:" ++ jsStrToLower N] := by
    simp [refKeys, jsTruthyOpt, jsTruthy, hNb, bind, Except.bind, pure, Except.pure]
  have hkH : refKeys { type := "checkpoint", hash := some (.str H) } =
      .ok ["hash:" ++ H] := by
    simp [refKeys, jsTruthyOpt, jsTruthy, hHb, jsToStringOpt, jsToString, bind,
      Except.bind, pure, Except.pure]
  obtain ⟨m1, c1, hcore, hvals⟩ := consolidateCore_disjoint
    [{ type := "checkpoint", name := some (.str N) },
     { type := "checkpoint", hash := some (.str H) }] [] 0
    (by
      intro r hr
      simp only [List.mem_cons, List.not_mem_nil, or_false] at hr
      rcases hr with rfl | rfl
      · rw [hkN]; rfl
      · rw [hkH]; rfl)
    (fun r _ k _ => rfl)
    (by
      refine List.Pairwise.cons ?_ (List.pairwise_singleton _ _)
      intro b hb k hk
      simp only [List.mem_singleton] at hb
      subst hb
      rw [refKeysD, hkN] at hk
      rw [refKeysD, hkH]
      simp only [List.mem_singleton] at hk
      subst hk
      simp only [List.mem_singleton]
      exact hashNameMeta_key_ne N H)
  rw [consolidateReferences]
  rw [show (consolidateCore [] 0
      [{ type := "checkpoint", name := some (.str N) },
       { type := "checkpoint", hash := some (.str H) }] >>= fun x =>
      pure (x.1.map (fun e => e.2)) : Except RTErr (List ModelReference)) =
      (consolidateCore [] 0
        [{ type := "checkpoint", name := some (.str N) },
         { type := "checkpoint", hash := some (.str H) }]).bind
        (fun x => .ok (x.1.map (fun e => e.2))) from rfl]
  rw [hcore]
  show Except.ok (m1.map (fun e => e.2)) = _
  rw [hvals]
  simp

/-- C6 (witness): the two-reference theorem at a concrete name and hash. -/
theorem extractModelReferences_hash_plus_name_two_refs_witness :
    extractModelReferences (mkHashNameMeta "RealVis" "abc123") =
      .ok [{ type := "checkpoint", name := some (.str "RealVis") },
           { type := "checkpoint", hash := some (.str "abc123") }] :=
  extractModelReferences_hash_plus_name_two_refs "RealVis" "abc123"
    (by decide) (by decide)

-- Pipeline infrastructure lemmas shared by the batch claims.

theorem getEntitySnapshot_backlink (db : DB) (x p s : Nat) :
    getEntitySnapshot (backlinkProcessedDocument db x p) s =
      (getEntitySnapshot db s).map (fun sn =>
        if sn.sid = x then { sn with processedDocumentId := some p } else sn) := by
  unfold getEntitySnapshot backlinkProcessedDocument
  rw [List.find?_map]
  have hpred : ((fun sn : SnapDoc => decide (sn.sid = s)) ∘ (fun sn : SnapDoc =>
      if sn.sid = x then { sn with processedDocumentId := some p } else sn)) =
      fun sn : SnapDoc => decide (sn.sid = s) := by
    funext sn
    by_cases h : sn.sid = x <;> simp [h]
  rw [hpred]

theorem badItem_snaps_eq {db db2 : DB} {sid : Nat} (h : db2.snaps = db.snaps) :
    BadItem db sid → BadItem db2 sid := by
  rintro (hn | ⟨snap, hs, hp⟩)
  · left
    rw [getEntitySnapshot, h]
    exact hn
  · right
    refine ⟨snap, ?_, hp⟩
    rw [getEntitySnapshot, h]
    exact hs

theorem badItem_backlink {db : DB} {sid : Nat} (x p : Nat) :
    BadItem db sid → BadItem (backlinkProcessedDocument db x p) sid := by
  rintro (hn | ⟨snap, hs, hp⟩)
  · left
    rw [getEntitySnapshot_backlink, hn]
    rfl
  · right
    refine ⟨if snap.sid = x then { snap with processedDocumentId := some p } else snap, ?_, ?_⟩
    · rw [getEntitySnapshot_backlink, hs]
      rfl
    · by_cases h : snap.sid = x <;> simp [h, hp]

theorem snapParses_snaps_eq {db db2 : DB} {s : Nat} {i : Int}
    (h : db2.snaps = db.snaps) : SnapParses db s i → SnapParses db2 s i := by
  rintro ⟨snap, hs, p, hp, hid⟩
  refine ⟨snap, ?_, p, hp, hid⟩
  rw [getEntitySnapshot, h]
  exact hs

theorem snapParses_backlink {db : DB} {s : Nat} {i : Int} (x p : Nat) :
    SnapParses db s i → SnapParses (backlinkProcessedDocument db x p) s i := by
  rintro ⟨snap, hs, q, hq, hid⟩
  refine ⟨if snap.sid = x then { snap with processedDocumentId := some p } else snap, ?_, q, ?_, hid⟩
  · rw [getEntitySnapshot_backlink, hs]
    rfl
  · by_cases h : snap.sid = x <;> simp [h, hq]

theorem linked_backlink_same {db : DB} {s : Nat} {d : Nat} (x : Nat) :
    Linked db s d → Linked (backlinkProcessedDocument db x d) s d := by
  rintro ⟨snap, hs, hd⟩
  refine ⟨if snap.sid = x then { snap with processedDocumentId := some d } else snap, ?_, ?_⟩
  · rw [getEntitySnapshot_backlink, hs]
    rfl
  · by_cases h : snap.sid = x <;> simp [h, hd]

theorem processEntityToImage_aux_preserved (db : DB) (x : Nat) :
    ((processEntityToImage db x).1).scheduled = db.scheduled ∧
    ((processEntityToImage db x).1).tags = db.tags ∧
    ((processEntityToImage db x).1).imageTags = db.imageTags := by
  unfold processEntityToImage
  repeat' split
  all_goals dsimp only
  all_goals try (repeat' split)
  all_goals simp [backlinkProcessedDocument]

theorem badItem_processEntityToImage {db : DB} {sid : Nat} (x : Nat)
    (h : BadItem db sid) : BadItem ((processEntityToImage db x).1) sid := by
  unfold processEntityToImage
  repeat' split
  all_goals dsimp only
  all_goals try (repeat' split)
  all_goals
    first
    | exact h
    | exact badItem_backlink _ _ h
    | exact badItem_snaps_eq rfl h
    | exact badItem_backlink _ _ (badItem_snaps_eq rfl h)

theorem badItem_step {db : DB} {sid : Nat} (h : BadItem db sid) :
    ∃ e, processEntityToImage db sid = (db, .error e) := by
  rcases h with hn | ⟨snap, hs, hp⟩
  · exact ⟨.invalidSnapshot, by simp [processEntityToImage, hn]⟩
  · exact ⟨.parseFailure, by simp [processEntityToImage, hs, hp]⟩

theorem processItems_length (db : DB) (items : List Nat) :
    (processItems db items).2.length = items.length := by
  induction items generalizing db with
  | nil => rfl
  | cons sid rest ih =>
      rw [processItems]
      cases hr : (processEntityToImage db sid).2 <;> simp [hr, ih]

theorem processItems_scheduled (db : DB) (items : List Nat) :
    ((processItems db items).1).scheduled = db.scheduled ∧
    ((processItems db items).1).tags = db.tags ∧
    ((processItems db items).1).imageTags = db.imageTags := by
  induction items generalizing db with
  | nil => exact ⟨rfl, rfl, rfl⟩
  | cons sid rest ih =>
      rw [processItems]
      cases hr : (processEntityToImage db sid).2 <;>
        simp [hr, (ih ((processEntityToImage db sid).1)).1,
          (ih ((processEntityToImage db sid).1)).2.1,
          (ih ((processEntityToImage db sid).1)).2.2,
          (processEntityToImage_aux_preserved db sid).1,
          (processEntityToImage_aux_preserved db sid).2.1,
          (processEntityToImage_aux_preserved db sid).2.2]

theorem processItems_isolate (pre : List Nat) :
    ∀ (db : DB) (sid : Nat) (post : List Nat), BadItem db sid →
    ∃ e, processItems db (pre ++ sid :: post) =
      ((processItems db (pre ++ post)).1,
       (processItems db (pre ++ post)).2.take pre.length ++
         (.error (sid, e) : ItemResult) :: (processItems db (pre ++ post)).2.drop pre.length) := by
  induction pre with
  | nil =>
      intro db sid post hbad
      obtain ⟨e, he⟩ := badItem_step hbad
      refine ⟨e, ?_⟩
      rw [List.nil_append, List.nil_append, processItems, he]
      simp
  | cons x pre2 ih =>
      intro db sid post hbad
      rcases hpe : processEntityToImage db x with ⟨db1, r⟩
      have hbad1 : BadItem db1 sid := by
        have hstep := @badItem_processEntityToImage db sid x hbad
        rw [hpe] at hstep
        exact hstep
      obtain ⟨e, he⟩ := ih db1 sid post hbad1
      refine ⟨e, ?_⟩
      simp only [List.cons_append, processItems]
      rw [hpe]
      dsimp only
      cases r <;> simp [he]

theorem ensureTag_untagged (db : DB) (isInt : Bool) (now : Int) :
    ∃ db0 tid, ensureTag db untaggedTagName isInt now = .ok (db0, tid) ∧
      db0.images = db.images ∧ db0.snaps = db.snaps ∧
      db0.scheduled = db.scheduled ∧ db0.imageTags = db.imageTags := by
  cases hx : getTagByName db (jsStrToLower (jsStrTrim untaggedTagName)) with
  | some t => exact ⟨db, t.tid, by simp [ensureTag, hx], rfl, rfl, rfl, rfl⟩
  | none =>
      have hc : createTag db (jsStrToLower (jsStrTrim untaggedTagName)) isInt now =
          .ok ({ db with
                  tags := db.tags ++
                    [{ tid := db.nextId
                       name := jsStrToLower (jsStrTrim (jsStrToLower (jsStrTrim untaggedTagName)))
                       isInternal := isInt
                       createdAt := now
                       updatedAt := now }]
                  nextId := db.nextId + 1 }, db.nextId) := by
        unfold createTag
        rw [if_neg (by decide), if_neg (by decide)]
        rw [show getTagByName db
            (jsStrToLower (jsStrTrim (jsStrToLower (jsStrTrim untaggedTagName)))) =
            getTagByName db (jsStrToLower (jsStrTrim untaggedTagName)) from rfl, hx]
      exact ⟨{ db with
                tags := db.tags ++
                  [{ tid := db.nextId
                     name := jsStrToLower (jsStrTrim (jsStrToLower (jsStrTrim untaggedTagName)))
                     isInternal := isInt
                     createdAt := now
                     updatedAt := now }]
                nextId := db.nextId + 1 }, db.nextId,
        by simp [ensureTag, hx, hc], rfl, rfl, rfl, rfl⟩

theorem insertImages_as_processItems (db db0 : DB) (tid : Nat) (items : List Nat)
    (now : Int)
    (hensure : ensureTag db untaggedTagName true now = .ok (db0, tid)) :
    insertImages db items now = .ok
      (({ ((processItems db0 items).2.filterMap (fun r => r.toOption)).filter
            (fun e => e.inserted) |>.foldl (fun d result =>
          { d with imageTags := d.imageTags ++
              [{ imageId := result.image.docId, tagId := tid, createdAt := now }] })
          (processItems db0 items).1 with
          scheduled := (((processItems db0 items).2.filterMap (fun r => r.toOption)).filter
            (fun e => e.inserted) |>.foldl (fun d result =>
              { d with imageTags := d.imageTags ++
                  [{ imageId := result.image.docId, tagId := tid, createdAt := now }] })
              (processItems db0 items).1).scheduled ++
            [((processItems db0 items).2.filterMap (fun r => r.toOption)).map
              (fun e => StorageTask.mk e.image.url e.image.storageKey)] },
        (processItems db0 items).2)) := by
  rw [insertImages, hensure]

theorem foldl_imageTags_scheduled (l : List ProcessResult) (d : DB) (tid : Nat)
    (now : Int) :
    (l.foldl (fun d result =>
      { d with imageTags := d.imageTags ++
          [{ imageId := result.image.docId, tagId := tid, createdAt := now }] }) d).scheduled =
      d.scheduled := by
  induction l generalizing d with
  | nil => rfl
  | cons r rest ih => simp [List.foldl_cons, ih]

theorem filterMap_toOption_splice (l : List ItemResult) (n : Nat) (sid : Nat)
    (e : PErr) :
    ((l.take n ++ (.error (sid, e) : ItemResult) :: l.drop n).filterMap
      (fun r => r.toOption)) = l.filterMap (fun r => r.toOption) := by
  rw [List.filterMap_append, List.filterMap_cons]
  have : (Except.error (sid, e) : ItemResult).toOption = none := rfl
  rw [this]
  rw [← List.filterMap_append, List.take_append_drop]

-- C7

/-- C7 (counterexample): a batch whose single item resolves to an existing
image (inserted=false everywhere) still hands that item's
(sourceUrl, storageKey) pair to the storage dispatcher — duplicates are
enqueued, not only newly inserted entities. -/
theorem insertImages_enqueues_duplicate_counterexample :
    (insertImages dbDup [1] 0).map (fun p =>
      (p.1.scheduled,
       p.2.map (fun r => match r with
         | .ok pr => some pr.inserted
         | .error _ => none))) =
      .ok ([[{ sourceUrl := "https://img.example/a.png", storageKey := some "images/42" }]],
           [some false]) := by
  decide

/-- C7 (amended): the single dispatched batch consists of the
(sourceUrl, storageKey) pairs of every item that resolved to an image —
newly inserted or duplicate — in result order; only items that failed
contribute no task. -/
theorem insertImages_enqueue_tasks_characterization (db : DB) (items : List Nat)
    (now : Int) :
    ∃ db1 results, insertImages db items now = .ok (db1, results) ∧
      results.length = items.length ∧
      db1.scheduled = db.scheduled ++
        [(results.filterMap (fun r => r.toOption)).map
          (fun e => StorageTask.mk e.image.url e.image.storageKey)] := by
  obtain ⟨db0, tid, hensure, hio, hsn, hsch, hit⟩ := ensureTag_untagged db true now
  refine ⟨_, _, insertImages_as_processItems db db0 tid items now hensure,
    processItems_length db0 items, ?_⟩
  simp only [foldl_imageTags_scheduled, (processItems_scheduled db0 items).1, hsch]

-- C8

/-- C8: batch ingestion never throws and isolates failures.  Every call
returns per-item results of exactly the batch's length, and an item with a
missing snapshot or schema-invalid payload yields one structured error
entry while the final database and every other item's result are exactly
those of the batch with that item removed. -/
theorem insertImages_batch_isolation (db : DB) (items : List Nat) (now : Int) :
    (∃ db1 results, insertImages db items now = .ok (db1, results) ∧
      results.length = items.length) ∧
    (∀ pre sid post, items = pre ++ sid :: post → BadItem db sid →
      ∃ db1 r1 r2 e, insertImages db items now = .ok (db1, r1) ∧
        insertImages db (pre ++ post) now = .ok (db1, r2) ∧
        r1 = r2.take pre.length ++ (.error (sid, e) : ItemResult) :: r2.drop pre.length ∧
        r1.length = items.length) := by
  obtain ⟨db0, tid, hensure, hio, hsn, hsch, hit⟩ := ensureTag_untagged db true now
  constructor
  · exact ⟨_, _, insertImages_as_processItems db db0 tid items now hensure,
      processItems_length db0 items⟩
  · intro pre sid post hitems hbad
    subst hitems
    have hbad0 : BadItem db0 sid := badItem_snaps_eq hsn hbad
    obtain ⟨e, hiso⟩ := processItems_isolate pre db0 sid post hbad0
    have heq1 := insertImages_as_processItems db db0 tid (pre ++ sid :: post) now hensure
    have heq2 := insertImages_as_processItems db db0 tid (pre ++ post) now hensure
    rw [hiso] at heq1
    dsimp only at heq1
    rw [filterMap_toOption_splice] at heq1
    have hbl : (processItems db0 (pre ++ post)).2.length = pre.length + post.length := by
      rw [processItems_length]
      simp
    refine ⟨_, _, (processItems db0 (pre ++ post)).2, e, heq1, heq2, rfl, ?_⟩
    simp [hbl]

/-- C8 (witness): the isolation theorem at a concrete batch whose second
item references a missing snapshot. -/
theorem insertImages_batch_isolation_witness :
    ∃ db1 r1 r2 e, insertImages dbA [1, 99] 0 = .ok (db1, r1) ∧
      insertImages dbA [1] 0 = .ok (db1, r2) ∧
      r1 = r2.take 1 ++ (.error (99, e) : ItemResult) :: r2.drop 1 ∧
      r1.length = 2 :=
  (insertImages_batch_isolation dbA [1, 99] 0).2 [1] 99 [] rfl (Or.inl (by decide))

-- C1

theorem processEntityToImage_duplicate_facts (db : DB) (sid : Nat) (iid : Int)
    (img : ImageDoc)
    (himg : getImageByImageId db iid = some img)
    (hs : SnapParses db sid iid) :
    ∃ snap db2,
      processEntityToImage db sid = (db2, .ok ⟨sid, snap, false, img⟩) ∧
      db2.images = db.images ∧
      Linked db2 sid img.docId ∧
      (∀ s, Linked db s img.docId → Linked db2 s img.docId) ∧
      (∀ s i2, SnapParses db s i2 → SnapParses db2 s i2) := by
  obtain ⟨snap, hsnap, p, hp, hid⟩ := hs
  have himg2 : getImageByImageId db p.id = some img := by rw [hid]; exact himg
  have hsid : snap.sid = sid := by
    have := List.find?_some hsnap
    simpa using this
  by_cases hpd : snap.processedDocumentId ≠ some img.docId
  · refine ⟨snap, backlinkProcessedDocument db sid img.docId, ?_, rfl, ?_,
      fun s => linked_backlink_same sid, fun s i2 => snapParses_backlink sid img.docId⟩
    · simp [processEntityToImage, hsnap, hp, himg2, hpd]
    · refine ⟨{ snap with processedDocumentId := some img.docId }, ?_, rfl⟩
      rw [getEntitySnapshot_backlink, hsnap]
      simp [hsid]
  · rw [not_not] at hpd
    refine ⟨snap, db, ?_, rfl, ⟨snap, hsnap, hpd⟩, fun s h => h, fun s i2 h => h⟩
    simp [processEntityToImage, hsnap, hp, himg2, hpd]

theorem processEntityToImage_insert_facts (db : DB) (sid : Nat) (iid : Int)
    (snap : SnapDoc) (p : ParsedImage) (models : List ModelReference)
    (hsnap : getEntitySnapshot db sid = some snap)
    (hp : parseImage snap.rawData = some p)
    (hid : p.id = iid)
    (hnone : getImageByImageId db iid = none)
    (hex : extractModelReferences (p.meta.getD (.obj [])) = .ok models) :
    ∃ img db2,
      processEntityToImage db sid = (db2, .ok ⟨sid, snap, true, img⟩) ∧
      img.imageId = iid ∧
      db2.images = db.images ++ [img] ∧
      getImageByImageId db2 iid = some img ∧
      Linked db2 sid img.docId ∧
      (∀ s i2, SnapParses db s i2 → SnapParses db2 s i2) := by
  have hnone2 : getImageByImageId db p.id = none := by rw [hid]; exact hnone
  have hsid : snap.sid = sid := by
    have := List.find?_some hsnap
    simpa using this
  have hfilnil : db.images.filter (fun i => i.imageId = p.id) = [] := by
    rw [List.filter_eq_nil_iff]
    intro a ha
    simpa using List.find?_eq_none.mp hnone2 a ha
  have huniq : uniqueImageByImageId
      { db with images := db.images ++ [mkImageDoc db sid p models]
                nextId := db.nextId + 1 } p.id = some (mkImageDoc db sid p models) := by
    rw [uniqueImageByImageId]
    rw [show ({ db with images := db.images ++ [mkImageDoc db sid p models]
                        nextId := db.nextId + 1 } : DB).images =
        db.images ++ [mkImageDoc db sid p models] from rfl]
    rw [List.filter_append, hfilnil]
    simp [mkImageDoc]
  have hstep : processEntityToImage db sid =
      (backlinkProcessedDocument
        { db with images := db.images ++ [mkImageDoc db sid p models]
                  nextId := db.nextId + 1 } sid (mkImageDoc db sid p models).docId,
       .ok ⟨sid, snap, true, mkImageDoc db sid p models⟩) := by
    simp [processEntityToImage, hsnap, hp, hnone2, hex, huniq]
  refine ⟨mkImageDoc db sid p models, _, hstep, by rw [mkImageDoc]; exact hid, rfl, ?_, ?_, ?_⟩
  · show (db.images ++ [mkImageDoc db sid p models]).find?
      (fun i => i.imageId = iid) = some (mkImageDoc db sid p models)
    rw [List.find?_append]
    rw [show db.images.find? (fun i => decide (i.imageId = iid)) =
      getImageByImageId db iid from rfl, hnone]
    simp [mkImageDoc, hid]
  · refine ⟨{ snap with processedDocumentId := some (mkImageDoc db sid p models).docId }, ?_, rfl⟩
    rw [getEntitySnapshot_backlink]
    rw [show getEntitySnapshot
        { db with images := db.images ++ [mkImageDoc db sid p models]
                  nextId := db.nextId + 1 } sid = getEntitySnapshot db sid from rfl, hsnap]
    simp [hsid]
  · intro s i2 h
    exact snapParses_backlink sid (mkImageDoc db sid p models).docId
      (snapParses_snaps_eq rfl h)

theorem processItems_dup_phase (iid : Int) (img : ImageDoc) (rest : List Nat) :
    ∀ db : DB,
      getImageByImageId db iid = some img →
      (∀ s ∈ rest, SnapParses db s iid) →
      ∃ dbf results, processItems db rest = (dbf, results) ∧
        (∀ r ∈ results, ∃ s snap, r = (.ok ⟨s, snap, false, img⟩ : ItemResult)) ∧
        results.length = rest.length ∧
        dbf.images = db.images ∧
        (∀ s ∈ rest, Linked dbf s img.docId) ∧
        (∀ s, Linked db s img.docId → Linked dbf s img.docId) := by
  induction rest with
  | nil =>
      intro db himg hsp
      exact ⟨db, [], rfl, by simp, rfl, rfl, by simp, fun s h => h⟩
  | cons x rest2 ih =>
      intro db himg hsp
      obtain ⟨snap, db2, hstep, himages, hlink, hmono, hparse⟩ :=
        processEntityToImage_duplicate_facts db x iid img himg (hsp x (by simp))
      have himg2 : getImageByImageId db2 iid = some img := by
        show db2.images.find? (fun i => i.imageId = iid) = some img
        rw [himages]
        exact himg
      obtain ⟨dbf, results2, hpi, hforall, hlen, hfimages, hrestlink, hfmono⟩ :=
        ih db2 himg2 (fun s hs => hparse s iid (hsp s (by simp [hs])))
      refine ⟨dbf, (.ok ⟨x, snap, false, img⟩ : ItemResult) :: results2, ?_, ?_,
        by simp [hlen], ?_, ?_, fun s h => hfmono s (hmono s h)⟩
      · rw [processItems, hstep]
        dsimp only
        rw [hpi]
      · intro r hr
        rcases List.mem_cons.mp hr with rfl | hr
        · exact ⟨x, snap, rfl⟩
        · exact hforall r hr
      · rw [hfimages, himages]
      · intro s hs
        rcases List.mem_cons.mp hs with rfl | hs
        · exact hfmono s hlink
        · exact hrestlink s hs

/-- C1 (counterexample): a schema-valid payload whose metadata makes the
reference extractor throw (see the C5 bug) is never ingested — the first
call on its snapshot returns an error, not inserted=true, and creates no
image record. -/
theorem processEntityToImage_poisoned_counterexample :
    processEntityToImage dbPoison 1 = (dbPoison, .error (.extractorThrow .typeError)) ∧
    dbPoison.images = [] := by
  constructor
  · decide
  · rfl

/-- C1 (amended): provided reference extraction terminates normally on the
payload, ingesting snapshots of one natural key any number of times creates
exactly one image record: the first call inserts and reports inserted=true,
every later call reports inserted=false with that same record and performs
no further insert (the later snapshots need not even have extractable
metadata, since extraction is not re-run), and every processed snapshot
ends up back-linked to the record. -/
theorem processEntityToImage_natural_key_dedup
    (db : DB) (iid : Int) (s0 : Nat) (rest : List Nat) (snap0 : SnapDoc)
    (p0 : ParsedImage) (models0 : List ModelReference)
    (hsnap0 : getEntitySnapshot db s0 = some snap0)
    (hparse0 : parseImage snap0.rawData = some p0)
    (hid0 : p0.id = iid)
    (hrest : ∀ s ∈ rest, SnapParses db s iid)
    (hnone : getImageByImageId db iid = none)
    (hex : extractModelReferences (p0.meta.getD (.obj [])) = .ok models0) :
    ∃ img dbf results,
      processItems db (s0 :: rest) = (dbf, results) ∧
      img.imageId = iid ∧
      results.head? = some (.ok ⟨s0, snap0, true, img⟩ : ItemResult) ∧
      (∀ r ∈ results.tail, ∃ s snap, r = (.ok ⟨s, snap, false, img⟩ : ItemResult)) ∧
      results.length = rest.length + 1 ∧
      dbf.images = db.images ++ [img] ∧
      dbf.images.filter (fun i => i.imageId = iid) = [img] ∧
      (∀ s ∈ s0 :: rest, Linked dbf s img.docId) := by
  obtain ⟨img, db2, hstep, himgid, himages2, hfound, hlink0, hparsepres⟩ :=
    processEntityToImage_insert_facts db s0 iid snap0 p0 models0 hsnap0 hparse0
      hid0 hnone hex
  obtain ⟨dbf, results2, hpi, hforall, hlen, hfimages, hrestlink, hfmono⟩ :=
    processItems_dup_phase iid img rest db2 hfound
      (fun s hs => hparsepres s iid (hrest s hs))
  refine ⟨img, dbf, (.ok ⟨s0, snap0, true, img⟩ : ItemResult) :: results2, ?_,
    himgid, rfl, ?_, by simp [hlen], ?_, ?_, ?_⟩
  · rw [processItems, hstep]
    dsimp only
    rw [hpi]
  · intro r hr
    exact hforall r hr
  · rw [hfimages, himages2]
  · rw [hfimages, himages2, List.filter_append]
    have hfilnil : db.images.filter (fun i => i.imageId = iid) = [] := by
      rw [List.filter_eq_nil_iff]
      intro a ha
      simpa using List.find?_eq_none.mp hnone a ha
    rw [hfilnil]
    simp [himgid]
  · intro s hs
    rcases List.mem_cons.mp hs with rfl | hs
    · exact hfmono s hlink0
    · exact hrestlink s hs

/-- C1 (witness): the dedup theorem processing the same stored snapshot of
payloadA twice from a database with no image record for key 42. -/
theorem processEntityToImage_natural_key_dedup_witness :
    ∃ img dbf results,
      processItems dbA [1, 1] = (dbf, results) ∧
      img.imageId = 42 ∧
      results.head? = some (.ok ⟨1, snapA, true, img⟩ : ItemResult) ∧
      (∀ r ∈ results.tail, ∃ s snap, r = (.ok ⟨s, snap, false, img⟩ : ItemResult)) ∧
      results.length = 2 ∧
      dbf.images = dbA.images ++ [img] ∧
      dbf.images.filter (fun i => i.imageId = 42) = [img] ∧
      (∀ s ∈ [1, 1], Linked dbf s img.docId) :=
  processEntityToImage_natural_key_dedup dbA 42 1 [1] snapA parsedA []
    (by decide) (by decide) (by decide)
    (fun s hs => by
      simp only [List.mem_singleton] at hs
      subst hs
      exact ⟨snapA, by decide, parsedA, by decide, by decide⟩)
    (by decide) (by decide)

end Crawler
